import Mathlib

/-!
Verification of the UCI engine wrapper `pystockfish.py` (class `Engine`).

The wrapper is a line-protocol client over a child process.  We embed the
pure parts of the code shallowly:

* the engine's output stream is modelled as a `List String`, the successive
  values returned by `self.stdout.readline()` with the trailing newline
  removed; reading past the end of the list models a read that blocks
  forever (the Python loops have no timeout and no end-of-stream handling);
* the Python string operations the code uses — `str.strip()`,
  `str.split(' ')`, `str.find(pat) >= 0` — are defined structurally over
  the character list of the string, following Python's semantics exactly
  (`split(' ')` keeps empty pieces between consecutive separators);
* Python dict values are `PyVal` (the values actually stored by
  `Engine.__init__` are ints, strings, booleans, and — because of the
  trailing commas on lines 78–79 — one-element tuples of ints);
* `randint(rand_min, rand_max)` is nondeterministic, so the two draws are
  passed in as explicit integer parameters `r1`, `r2`.
-/

/-- The characters Python `str.strip()` and `str.split()` treat as
whitespace: space, tab, newline, carriage return, vertical tab, form
feed. -/
def pyIsSpace (c : Char) : Bool :=
  c == ' ' || c == '\t' || c == '\n' || c == '\r' || c == '\x0b' || c == '\x0c'

/-- Python `s.strip()`: drop whitespace from both ends. -/
def pyStrip (s : String) : String :=
  ⟨((s.data.dropWhile pyIsSpace).reverse.dropWhile pyIsSpace).reverse⟩

/-- Split a character list at every character satisfying `p`, keeping
empty pieces (Python `str.split(sep)` semantics).  Always returns at
least one piece. -/
def splitChars (p : Char → Bool) : List Char → List (List Char)
  | [] => [[]]
  | c :: cs =>
    match splitChars p cs with
    | [] => [[]]
    | g :: gs => if p c then [] :: g :: gs else (c :: g) :: gs

/-- Python `s.split(' ')`: split at every single space character, keeping
empty pieces between consecutive spaces. -/
def pySplitSpace (s : String) : List String :=
  (splitChars (fun c => c == ' ') s.data).map String.mk

/-- `pat` is a leading segment of `cs`. -/
def leadsWith : List Char → List Char → Bool
  | [], _ => true
  | _ :: _, [] => false
  | p :: ps, c :: cs => p == c && leadsWith ps cs

/-- `pat` occurs as a contiguous segment of the list. -/
def hasSub (pat : List Char) : List Char → Bool
  | [] => leadsWith pat []
  | c :: cs => leadsWith pat (c :: cs) || hasSub pat cs

/-- A Python value as stored in the option dictionary or formatted by
`str(value)` in `Engine.setoption`.  `tuple1 i` is the one-element tuple
`(i,)` produced by the trailing commas on lines 78–79 of the source. -/
inductive PyVal where
  | int (i : Int)
  | str (s : String)
  | bool (b : Bool)
  | tuple1 (i : Int)
deriving DecidableEq, Repr

/-- Python `str(value)`: `str(5) = "5"`, `str("x") = "x"`,
`str(False) = "False"`, `str((5,)) = "(5,)"`. -/
def pyStr : PyVal → String
  | .int i => toString i
  | .str s => s
  | .bool b => if b then "True" else "False"
  | .tuple1 i => "(" ++ toString i ++ ",)"

/-- Whether a `PyVal` is an integer value. -/
def PyVal.isInt : PyVal → Bool
  | .int _ => true
  | _ => false

/-- The tokens of an engine output line as `Engine.bestmove` computes them:
`text = line.strip()` then `split_text = text.split(' ')` (source lines
139–140). -/
def pyTokens (line : String) : List String :=
  pySplitSpace (pyStrip line)

/-- Whitespace tokenization, Python `line.split()` with no argument:
split on whitespace, dropping empty pieces.  This is NOT what the source
does; it is the reading suggested by the specification's phrase
"whitespace-separated token" and is defined only to compare the
specification against the code. -/
def wsTokens (line : String) : List String :=
  ((splitChars pyIsSpace line.data).filter (fun t => t ≠ [])).map String.mk

/-- The test on source line 141: `split_text[0] == 'bestmove'`.
`split(' ')` always returns at least one piece, so indexing 0 never
fails; `headD` with an arbitrary default is therefore faithful. -/
def lineIsBestmove (line : String) : Bool :=
  (pyTokens line).headD "" == "bestmove"

/-- The dictionary returned by `Engine.bestmove` (source lines 142–151). -/
structure SearchResult where
  move : String
  ponder : String
  info : String
deriving DecidableEq, Repr

/-- Outcome of `Engine.bestmove` on a given output stream:
a parsed result, an uncaught `IndexError` (the `except` handler on lines
147–151 evaluates `split_text[1]` again, which re-raises when index 1 is
out of range), or a read that blocks forever because the stream holds no
further line. -/
inductive SearchOutcome where
  | result (r : SearchResult)
  | indexFault
  | blocked
deriving DecidableEq, Repr

/-- The read loop of `Engine.bestmove` (source lines 138–152), with the
current value of `last_line` threaded through.  Each iteration strips the
line, splits it on single spaces and tests token 0; on the first
`bestmove` line it returns `{'move': split_text[1], 'ponder':
split_text[3], 'info': last_line}`, falling back to ponder `'-'` when
index 3 raises `IndexError`, and re-raising when index 1 does. -/
def bestmoveLoop : List String → String → SearchOutcome
  | [], _ => .blocked
  | line :: rest, lastLine =>
    let text := pyStrip line
    let toks := pySplitSpace text
    if toks.headD "" == "bestmove" then
      match toks[1]?, toks[3]? with
      | some m, some p => .result ⟨m, p, lastLine⟩
      | some m, none => .result ⟨m, "-", lastLine⟩
      | none, _ => .indexFault
    else
      bestmoveLoop rest text

/-- `Engine.bestmove` (source lines 135–152): `last_line` starts as `""`
and the loop reads from the stream. -/
def pyBestmove (lines : List String) : SearchOutcome :=
  bestmoveLoop lines ""

/-- The read loop of `Engine.isready` (source lines 158–162): read a line,
strip it, return it when it equals `readyok`; `none` models a stream on
which the sentinel never appears, where the Python loop blocks forever. -/
def pyIsready : List String → Option String
  | [] => none
  | line :: rest =>
    let text := pyStrip line
    if text == "readyok" then some text else pyIsready rest

/-- Python `stdout.find('No such') >= 0` (source line 103): substring
containment. -/
def containsNoSuch (s : String) : Bool :=
  hasSub "No such".data s.data

/-- `Engine.setoption` (source lines 100–104) after the write: it calls
`self.isready()` and prints a warning iff the returned string contains
`'No such'`.  `some w` means the call returned with warning flag `w`;
`none` means `isready` blocked forever. -/
def setoptionWarned (lines : List String) : Option Bool :=
  (pyIsready lines).map containsNoSuch

/-- The default option table of `Engine.__init__` (source lines 62–75),
in insertion order. -/
def defaultParam : List (String × PyVal) :=
  [("Write Debug Log", .str "false"),
   ("Contempt Factor", .int 0),
   ("Contempt", .int 0),
   ("Min Split Depth", .int 0),
   ("Threads", .int 4),
   ("Hash", .int 128),
   ("MultiPV", .int 1),
   ("Skill Level", .int 20),
   ("Move Overhead", .int 30),
   ("Minimum Thinking Time", .int 20),
   ("Slow Mover", .int 80),
   ("UCI_Chess960", .str "false")]

/-- Python `d[k] = v` on an insertion-ordered dict modelled as an
association list with unique keys: replace the value in place when the key
is present, append otherwise. -/
def dictSet : List (String × PyVal) → String → PyVal → List (String × PyVal)
  | [], k, v => [(k, v)]
  | (k', v') :: rest, k, v =>
    if k' = k then (k, v) :: rest else (k', v') :: dictSet rest k v

/-- Python `d.update(p)`: apply `d[k] = v` for each pair of `p` in order. -/
def dictUpdate (d p : List (String × PyVal)) : List (String × PyVal) :=
  p.foldl (fun acc kv => dictSet acc kv.1 kv.2) d

/-- Python `d[k]` as a total lookup: the value at the first (for a dict,
the only) occurrence of the key. -/
def dictGet? : List (String × PyVal) → String → Option PyVal
  | [], _ => none
  | (k', v') :: rest, k => if k' = k then some v' else dictGet? rest k

/-- The value the last occurrence of a key binds it to, used to state what
`dictUpdate` does on an arbitrary association list (for a genuine mapping,
whose keys are unique, this coincides with `dictGet?`). -/
def dictGetLast? : List (String × PyVal) → String → Option PyVal
  | [], _ => none
  | (k', v') :: rest, k =>
    match dictGetLast? rest k with
    | some v => some v
    | none => if k' = k then some v' else none

/-- The option table built by `Engine.__init__` (source lines 62–82):
the default table, with `Contempt` and `Contempt Factor` overwritten by
the two `randint` draws when `rand` is set — the trailing commas on
lines 78–79 make the stored values the one-element tuples `(r1,)` and
`(r2,)` — then updated with the caller's `param` dict. -/
def engineParam (rand : Bool) (r1 r2 : Int) (param : List (String × PyVal)) :
    List (String × PyVal) :=
  let base := defaultParam
  let base :=
    if rand then
      dictSet (dictSet base "Contempt" (.tuple1 r1)) "Contempt Factor" (.tuple1 r2)
    else base
  dictUpdate base param

/-- The command line written by `Engine.setoption` (source line 101),
`'setoption name %s value %s' % (optionname, str(value))`, followed by the
`'isready'` line written by the `isready()` call on line 102. -/
def setoptionCmds (name : String) (v : PyVal) : List String :=
  ["setoption name " ++ name ++ " value " ++ pyStr v, "isready"]

/-- The sequence of lines `Engine.__init__` writes to the engine's input
stream (source lines 50–84): `uci`; then, when `ponder` is false,
`setoption('Ponder', False)`; then one `setoption` per entry of the final
option table, in table order. -/
def engineInitCmds (ponder rand : Bool) (r1 r2 : Int)
    (param : List (String × PyVal)) : List String :=
  ["uci"]
    ++ (if ponder then [] else setoptionCmds "Ponder" (.bool false))
    ++ (engineParam rand r1 r2 param).flatMap (fun kv => setoptionCmds kv.1 kv.2)

-- Sanity examples exercising the model on concrete inputs.
example : pyBestmove ["info depth 2", "bestmove e2e4 ponder e7e5"] =
    .result ⟨"e2e4", "e7e5", "info depth 2"⟩ := by decide
example : pyBestmove ["bestmove e2e4"] = .result ⟨"e2e4", "-", ""⟩ := by decide
example : pyBestmove ["bestmove"] = .indexFault := by decide
example : pyBestmove ["bestmove  e2e4"] = .result ⟨"", "-", ""⟩ := by decide
example : pyIsready ["a", " readyok "] = some "readyok" := by decide
example : pyIsready ["a"] = none := by decide
example : pyStr (.tuple1 5) = "(5,)" := by decide
example : pyStr (.bool false) = "False" := by decide
example : dictGet? (engineParam true 5 7 []) "Contempt" = some (.tuple1 5) := by decide
example : containsNoSuch "No such option: Ponder" = true := by decide
example : containsNoSuch "readyok" = false := by decide
example : wsTokens "bestmove  e2e4" = ["bestmove", "e2e4"] := by decide
example : pyTokens "bestmove  e2e4" = ["bestmove", "", "e2e4"] := by decide

/-! ### Helper lemmas about the read loops -/

lemma bestmoveLoop_nil (s : String) : bestmoveLoop [] s = .blocked := rfl

lemma bestmoveLoop_cons (line : String) (rest : List String) (lastLine : String) :
    bestmoveLoop (line :: rest) lastLine =
      if lineIsBestmove line then
        match (pyTokens line)[1]?, (pyTokens line)[3]? with
        | some m, some p => .result ⟨m, p, lastLine⟩
        | some m, none => .result ⟨m, "-", lastLine⟩
        | none, _ => .indexFault
      else
        bestmoveLoop rest (pyStrip line) := rfl

/-- Running the `bestmove` read loop over a stream whose first recognized
`bestmove` line is `l`: the lines of `pre` only update `last_line`, and
the returned outcome is determined by the tokens of `l` and the stripped
last line of `pre`. -/
lemma bestmoveLoop_append (pre : List String) (l : String) (rest : List String)
    (s0 : String) (hpre : ∀ x ∈ pre, lineIsBestmove x = false)
    (hl : lineIsBestmove l = true) :
    bestmoveLoop (pre ++ l :: rest) s0 =
      match (pyTokens l)[1]?, (pyTokens l)[3]? with
      | some m, some p => .result ⟨m, p, (pre.map pyStrip).getLastD s0⟩
      | some m, none => .result ⟨m, "-", (pre.map pyStrip).getLastD s0⟩
      | none, _ => .indexFault := by
  induction pre generalizing s0 with
  | nil =>
    rw [List.nil_append, bestmoveLoop_cons, if_pos hl]
    simp [List.getLastD]
  | cons a pre ih =>
    have ha : lineIsBestmove a = false := hpre a (by simp)
    have hpre' : ∀ x ∈ pre, lineIsBestmove x = false := fun x hx =>
      hpre x (List.mem_cons_of_mem a hx)
    rw [List.cons_append, bestmoveLoop_cons, ha]
    simp only [Bool.false_eq_true, if_false]
    rw [ih _ hpre']
    simp only [List.map_cons, List.getLastD_cons]

lemma pyIsready_nil : pyIsready [] = none := rfl

lemma pyIsready_cons (line : String) (rest : List String) :
    pyIsready (line :: rest) =
      if pyStrip line == "readyok" then some (pyStrip line) else pyIsready rest := rfl

/-- Full characterization of the `isready` read loop: it returns the
literal `"readyok"` as soon as some line strips to the sentinel, and
blocks (returns `none` in the model) otherwise. -/
lemma pyIsready_spec (lines : List String) :
    pyIsready lines =
      if lines.any (fun l => pyStrip l == "readyok") then some "readyok" else none := by
  induction lines with
  | nil => rfl
  | cons a rest ih =>
    rw [pyIsready_cons, ih, List.any_cons]
    cases h : (pyStrip a == "readyok") with
    | true => simp [eq_of_beq h]
    | false => simp [h]

/-- Whenever the `isready` loop returns, it returns `"readyok"`. -/
lemma pyIsready_eq_readyok (lines : List String) (s : String)
    (h : pyIsready lines = some s) : s = "readyok" := by
  rw [pyIsready_spec] at h
  split at h
  · exact (Option.some_injective _ h).symm
  · exact absurd h (by simp)

/-! ### Helper lemmas about the option dictionary -/

lemma dictGet?_dictSet (d : List (String × PyVal)) (k : String) (v : PyVal)
    (k2 : String) :
    dictGet? (dictSet d k v) k2 = if k = k2 then some v else dictGet? d k2 := by
  induction d with
  | nil => simp [dictSet, dictGet?]
  | cons a rest ih =>
    obtain ⟨k', v'⟩ := a
    by_cases h : k' = k
    · subst h
      simp only [dictSet, if_pos rfl, dictGet?]
      by_cases h2 : k' = k2 <;> simp [h2]
    · simp only [dictSet, if_neg h, dictGet?, ih]
      by_cases h2 : k = k2
      · subst h2
        rw [if_pos rfl, if_pos rfl, if_neg h]
      · rw [if_neg h2, if_neg h2]

lemma dictGet?_dictUpdate (p d : List (String × PyVal)) (k : String) :
    dictGet? (dictUpdate d p) k =
      match dictGetLast? p k with
      | some v => some v
      | none => dictGet? d k := by
  induction p generalizing d with
  | nil => simp [dictUpdate, dictGetLast?]
  | cons a p ih =>
    obtain ⟨k', v'⟩ := a
    have hstep : dictUpdate d ((k', v') :: p) = dictUpdate (dictSet d k' v') p := rfl
    rw [hstep, ih]
    simp only [dictGetLast?]
    cases h : dictGetLast? p k with
    | some v => simp
    | none =>
      simp only [dictGet?_dictSet]
      by_cases h2 : k' = k <;> simp [h2]

lemma dictGet?_eq_none_of_not_mem (p : List (String × PyVal)) (k : String)
    (h : k ∉ p.map Prod.fst) : dictGet? p k = none := by
  induction p with
  | nil => rfl
  | cons a p ih =>
    obtain ⟨k', v'⟩ := a
    simp only [List.map_cons, List.mem_cons] at h
    push_neg at h
    simp only [dictGet?]
    rw [if_neg (Ne.symm h.1), ih h.2]

/-- On an association list with unique keys — a genuine mapping — the
last-occurrence lookup agrees with the first-occurrence lookup. -/
lemma dictGetLast?_eq_dictGet? (p : List (String × PyVal)) (k : String)
    (h : (p.map Prod.fst).Nodup) : dictGetLast? p k = dictGet? p k := by
  induction p with
  | nil => rfl
  | cons a p ih =>
    obtain ⟨k', v'⟩ := a
    simp only [List.map_cons, List.nodup_cons] at h
    obtain ⟨hk, hp⟩ := h
    simp only [dictGetLast?, dictGet?, ih hp]
    by_cases h2 : k' = k
    · subst h2
      simp [dictGet?_eq_none_of_not_mem p k' hk]
    · cases hv : dictGet? p k <;> simp [h2]

/-! ### Claim theorems -/

/-- C5: whenever `isready` returns, its return value is exactly the
literal string `"readyok"`; it never returns a partial, empty, or any
other string (source lines 154–162: the loop only returns `text` when
`text == 'readyok'`). -/
theorem isready_returns_exactly_readyok (lines : List String) (s : String)
    (h : pyIsready lines = some s) : s = "readyok" :=
  pyIsready_eq_readyok lines s h

/-- Witness for C5 at the concrete stream `["info string hi", " readyok "]`. -/
theorem isready_returns_exactly_readyok_witness : ("readyok" : String) = "readyok" :=
  isready_returns_exactly_readyok ["info string hi", " readyok "] "readyok" (by decide)

/-- C8: the `isready` read loop terminates — returns a value in the
stream model — exactly when some output line strips to `"readyok"`, in
which case it returns that literal; on a stream where the sentinel never
appears it reads unconditionally past every line and blocks forever
(modelled by `none`), having discarded every line read before the
sentinel (source lines 158–162). -/
theorem isready_blocks_until_readyok (lines : List String) :
    pyIsready lines =
      if lines.any (fun l => pyStrip l == "readyok") then some "readyok" else none :=
  pyIsready_spec lines

/-- C6: the configuration-warning branch of `setoption` (source lines
102–104) is dead code.  `setoption` tests the return value of
`self.isready()` for the substring `'No such'`, but that return value is
always the literal `"readyok"`, so the warning is never reported — even
when the engine's response to the `setoption` command does contain
"No such", as the concrete stream in the second conjunct shows. -/
theorem setoption_never_warns :
    (∀ lines : List String, (setoptionWarned lines).getD false = false) ∧
    setoptionWarned ["No such option: Ponder", "readyok"] = some false ∧
    containsNoSuch "No such option: Ponder" = true := by
  refine ⟨?_, by decide, by decide⟩
  intro lines
  unfold setoptionWarned
  cases h : pyIsready lines with
  | none => rfl
  | some s =>
    have hs : s = "readyok" := pyIsready_eq_readyok lines s h
    subst hs
    decide

/-- C3: the contempt randomization is broken by the trailing commas on
source lines 78–79: with the randomize flag set (draws `r1 = r2 = 5`,
no overrides), the values stored for `Contempt` and `Contempt Factor`
are the one-element tuples `(5,)` — not integers at all, hence not
integers in the requested range — and the command sent to the engine is
`setoption name Contempt value (5,)`.  With the flag unset both options
keep their literal default `0`, as the claim states. -/
theorem contempt_randomization_stores_tuples :
    dictGet? (engineParam true 5 5 []) "Contempt" = some (.tuple1 5) ∧
    dictGet? (engineParam true 5 5 []) "Contempt Factor" = some (.tuple1 5) ∧
    (dictGet? (engineParam true 5 5 []) "Contempt").map PyVal.isInt = some false ∧
    (dictGet? (engineParam true 5 5 []) "Contempt Factor").map PyVal.isInt
      = some false ∧
    "setoption name Contempt value (5,)" ∈ engineInitCmds false true 5 5 [] ∧
    dictGet? (engineParam false 0 0 []) "Contempt" = some (.int 0) ∧
    dictGet? (engineParam false 0 0 []) "Contempt Factor" = some (.int 0) :=
  ⟨by decide, by decide, by decide, by decide, by decide, by decide, by decide⟩

/-- C4: with the randomize flag unset (its default), for every
option-override mapping (an association list with unique keys) the
effective option table stored by construction looks up as the default
table overlaid by the overrides — the override wins on every key
collision, and every other key keeps its default (source lines 62–82). -/
theorem engineParam_overlay (param : List (String × PyVal)) (k : String)
    (r1 r2 : Int) (h : (param.map Prod.fst).Nodup) :
    dictGet? (engineParam false r1 r2 param) k =
      match dictGet? param k with
      | some v => some v
      | none => dictGet? defaultParam k := by
  have hrw : engineParam false r1 r2 param = dictUpdate defaultParam param := rfl
  rw [hrw, dictGet?_dictUpdate, dictGetLast?_eq_dictGet? param k h]

/-- Witness for C4 at the override `[("Threads", 8)]`. -/
theorem engineParam_overlay_witness :
    dictGet? (engineParam false 0 0 [("Threads", PyVal.int 8)]) "Threads" =
      match dictGet? [("Threads", PyVal.int 8)] "Threads" with
      | some v => some v
      | none => dictGet? defaultParam "Threads" :=
  engineParam_overlay [("Threads", PyVal.int 8)] "Threads" 0 0 (by decide)

/-- C1 counterexample: the claim's "whitespace-separated" tokenization
does not match the code's `split(' ')`.  On the single line
`"bestmove  e2e4"` (two spaces), the first whitespace token is
`bestmove` and whitespace token 1 is `"e2e4"`, so the claim requires the
move field to be `"e2e4"`; the code splits on single spaces, getting
`["bestmove", "", "e2e4"]`, and returns the empty move `""` (with ponder
falling back to the `'-'` sentinel). -/
theorem bestmove_whitespace_token_counterexample :
    (wsTokens "bestmove  e2e4").headD "" = "bestmove" ∧
    (wsTokens "bestmove  e2e4")[1]? = some "e2e4" ∧
    pyBestmove ["bestmove  e2e4"] = .result ⟨"", "-", ""⟩ ∧
    (("" : String) == "e2e4") = false :=
  ⟨by decide, by decide, by decide, by decide⟩

/-- C1 (amended): for every stream whose first line recognized by the
code — token 0 of the stripped line split on single space characters is
`bestmove` — has at least two such tokens, `bestmove` returns a result
whose move field is token 1 of that line, whose ponder field is token 3
of that line when present and the `'-'` sentinel otherwise, and whose
info field is the stripped last line read before that line (empty when
it is the first line). -/
theorem bestmove_parses_first_bestmove_line (pre : List String) (l : String)
    (rest : List String) (hpre : ∀ x ∈ pre, lineIsBestmove x = false)
    (hl : lineIsBestmove l = true) (hlen : 2 ≤ (pyTokens l).length) :
    pyBestmove (pre ++ l :: rest) =
      .result ⟨((pyTokens l)[1]?).getD "", ((pyTokens l)[3]?).getD "-",
        (pre.map pyStrip).getLastD ""⟩ := by
  unfold pyBestmove
  rw [bestmoveLoop_append pre l rest "" hpre hl]
  have hlt : 1 < (pyTokens l).length := hlen
  rw [List.getElem?_eq_getElem hlt]
  cases h3 : (pyTokens l)[3]? with
  | some p => simp
  | none => simp

/-- Witness for C1 (amended) at a two-line stream. -/
theorem bestmove_parses_first_bestmove_line_witness :
    pyBestmove ["info depth 2 score cp 10", "bestmove e2e4 ponder e7e5"] =
      .result ⟨"e2e4", "e7e5", "info depth 2 score cp 10"⟩ := by
  have h := bestmove_parses_first_bestmove_line ["info depth 2 score cp 10"]
    "bestmove e2e4 ponder e7e5" [] (by decide) (by decide) (by decide)
  exact h

/-- C2: when the first recognized `bestmove` line carries a best-move
token (token 1 exists) but fewer than four tokens, `bestmove` returns a
normal `SearchResult` — no error, no index fault — whose ponder field is
the sentinel the code uses for an absent ponder move, the string `'-'`
(the `except IndexError` branch on source lines 147–151). -/
theorem bestmove_missing_ponder (pre : List String) (l : String)
    (rest : List String) (m : String)
    (hpre : ∀ x ∈ pre, lineIsBestmove x = false)
    (hl : lineIsBestmove l = true) (h1 : (pyTokens l)[1]? = some m)
    (hlen : (pyTokens l).length < 4) :
    pyBestmove (pre ++ l :: rest) =
      .result ⟨m, "-", (pre.map pyStrip).getLastD ""⟩ := by
  unfold pyBestmove
  rw [bestmoveLoop_append pre l rest "" hpre hl]
  have h3 : (pyTokens l)[3]? = none := List.getElem?_eq_none (by omega)
  rw [h1, h3]

/-- Witness for C2 at the single line `"bestmove e2e4"`. -/
theorem bestmove_missing_ponder_witness :
    pyBestmove ["bestmove e2e4"] = .result ⟨"e2e4", "-", ""⟩ := by
  have h := bestmove_missing_ponder [] "bestmove e2e4" [] "e2e4" (by simp)
    (by decide) (by decide) (by decide)
  exact h

/-- C9: on a line whose stripped, space-split form is the single token
`bestmove` (no move token), `bestmove` raises an uncaught `IndexError`:
`split_text[1]` raises inside the `try`, and the `except IndexError`
handler evaluates `split_text[1]` again (source line 148), so the error
branch is not total for this input. -/
theorem bestmove_bare_bestmove_index_fault (pre : List String) (l : String)
    (rest : List String) (hpre : ∀ x ∈ pre, lineIsBestmove x = false)
    (hl : pyTokens l = ["bestmove"]) :
    pyBestmove (pre ++ l :: rest) = .indexFault := by
  have hb : lineIsBestmove l = true := by
    unfold lineIsBestmove
    rw [hl]
    decide
  unfold pyBestmove
  rw [bestmoveLoop_append pre l rest "" hpre hb, hl]
  rfl

/-- Witness for C9 at the stream `["info depth 1", " bestmove "]`. -/
theorem bestmove_bare_bestmove_index_fault_witness :
    pyBestmove ["info depth 1", " bestmove "] = .indexFault :=
  bestmove_bare_bestmove_index_fault ["info depth 1"] " bestmove " []
    (by decide) (by decide)

/-- C10: if the very first line read by `bestmove` is the recognized
`bestmove` line and a result is returned, its info field is the empty
string `""`, the initial value of `last_line` (source line 136). -/
theorem bestmove_first_line_info_empty (l : String) (rest : List String)
    (r : SearchResult) (hl : lineIsBestmove l = true)
    (h : pyBestmove (l :: rest) = .result r) : r.info = "" := by
  unfold pyBestmove at h
  rw [show (l :: rest) = [] ++ l :: rest from rfl,
    bestmoveLoop_append [] l rest "" (by simp) hl] at h
  cases h1 : (pyTokens l)[1]? with
  | none =>
    rw [h1] at h
    exact (SearchOutcome.noConfusion h)
  | some m =>
    cases h3 : (pyTokens l)[3]? with
    | some p =>
      rw [h1, h3] at h
      injection h with h2
      rw [← h2]
      rfl
    | none =>
      rw [h1, h3] at h
      injection h with h2
      rw [← h2]
      rfl

/-- Witness for C10 at the single line `"bestmove e2e4 ponder e7e5"`. -/
theorem bestmove_first_line_info_empty_witness :
    (SearchResult.mk "e2e4" "e7e5" "").info = "" :=
  bestmove_first_line_info_empty "bestmove e2e4 ponder e7e5" []
    ⟨"e2e4", "e7e5", ""⟩ (by decide) (by decide)

/-- C7 counterexample: with the ponder flag false and default arguments,
the construction never writes the exact line claimed,
`setoption name Ponder value false`; Python's `str(False)` capitalizes,
so the line actually written is `setoption name Ponder value False`. -/
theorem ponder_command_case_counterexample :
    (engineInitCmds false false 0 0 []).contains
      "setoption name Ponder value false" = false ∧
    (engineInitCmds false false 0 0 []).contains
      "setoption name Ponder value False" = true :=
  ⟨by decide, by decide⟩

/-- C7 (amended): during construction, if the ponder-enable flag is
false, the session writes the exact command line
`setoption name Ponder value False` — with `False` capitalized, the
Python string form of the boolean — to the engine's input stream
(source lines 59–60 and 100–101), for every choice of the other
construction arguments. -/
theorem ponder_false_command_written (rand : Bool) (r1 r2 : Int)
    (param : List (String × PyVal)) :
    "setoption name Ponder value False" ∈ engineInitCmds false rand r1 r2 param := by
  have hrw : engineInitCmds false rand r1 r2 param =
      "uci" :: "setoption name Ponder value False" :: "isready" ::
        (engineParam rand r1 r2 param).flatMap (fun kv => setoptionCmds kv.1 kv.2) := rfl
  rw [hrw]
  exact List.mem_cons_of_mem _ (List.mem_cons_self _ _)
